import Mathlib

/-!
Shallow embedding of `src/app.py` (CurriculumGen): the conversation store,
the table extractor, and the `/chat` and `/upload` request handlers.

Text is modelled as `List Char` (`Str`).  The Python string operations the
source uses (`str.strip`, `str.split`, `str.lower`, `in`, `str.endswith`,
`str.rsplit('.', 1)[1]`) are given executable ASCII models below.  External
collaborators (the Gemini model gateway, the PDF/DOCX text extractors,
`werkzeug.secure_filename`, the connectivity probe) are parameters of the
handler models.
-/

deriving instance DecidableEq for Except

namespace CurriculumGen

abbrev Str := List Char

/-- Coerce a Lean string literal to the `List Char` model. -/
def str (s : String) : Str := s.data

/-- Python whitespace characters relevant to `str.strip()` (ASCII model). -/
def pyIsSpace (c : Char) : Bool :=
  c = ' ' || c = '\t' || c = '\n' || c = '\r' || c = '\x0b' || c = '\x0c'

/-- Model of Python `str.strip()`: drop whitespace from both ends. -/
def pyStrip (s : Str) : Str :=
  ((s.dropWhile pyIsSpace).reverse.dropWhile pyIsSpace).reverse

/-- Model of Python `str.lower()` (ASCII model). -/
def pyLower (s : Str) : Str := s.map Char.toLower

/-- Model of Python `s.split(sep)` for a one-character separator `sep`:
always returns a non-empty list of pieces; adjacent separators yield empty
pieces, as in Python. -/
def splitOnChar (c : Char) : Str → List Str
  | [] => [[]]
  | x :: xs =>
    if x = c then [] :: splitOnChar c xs
    else
      match splitOnChar c xs with
      | [] => [[x]]
      | y :: ys => (x :: y) :: ys

/-- Model of Python `sub in s`: `sub` occurs as a contiguous substring of
`s`. -/
def containsSub : Str → Str → Bool
  | [], sub => sub.isEmpty
  | x :: xs, sub => sub.isPrefixOf (x :: xs) || containsSub xs sub

/-- Model of Python `s.endswith(suffix)`. -/
def pyEndsWith (s suffix : Str) : Bool :=
  List.isPrefixOf suffix.reverse s.reverse

/-- The part of a filename after its last `.`: Python
`filename.rsplit('.', 1)[1]` (meaningful when the filename contains a dot). -/
def fileExt (filename : Str) : Str :=
  (splitOnChar '.' filename).getLastD []

/-- Function `allowed_file` from `src/app.py`: the filename contains a `.` and the
lower-cased part after the last `.` is `pdf` or `docx`. -/
def allowed_file (filename : Str) : Bool :=
  filename.contains '.' &&
    (pyLower (fileExt filename) == str "pdf" || pyLower (fileExt filename) == str "docx")

/-! ## Table extractor (`extract_table` in `src/app.py`) -/

/-- A parsed table: `{"headers": ..., "rows": ...}` from `extract_table`. -/
structure Table where
  headers : List Str
  rows : List (List Str)
deriving DecidableEq, Repr

/-- The line filter of `extract_table`: keep a line iff it contains `|` and
its lower-cased content contains neither `customize` nor `spreadsheet`. -/
def keepLine (line : Str) : Bool :=
  containsSub line (str "|") &&
    !containsSub (pyLower line) (str "customize") &&
    !containsSub (pyLower line) (str "spreadsheet")

/-- The list `table_lines` as built by the loop in `extract_table`: split the
stripped input on newlines and filter with `keepLine`. -/
def tableLines (response_text : Str) : List Str :=
  (splitOnChar '\n' (pyStrip response_text)).filter keepLine

/-- Function `extract_table` from `src/app.py`.  `Except.error` models the
`ValueError` raised when no table line is found. -/
def extract_table (response_text : Str) : Except Str Table :=
  match tableLines response_text with
  | [] => .error (str "No table detected in the response.")
  | h :: t =>
    .ok { headers := (splitOnChar '|' h).map pyStrip
          rows := t.map fun row => (splitOnChar '|' row).map pyStrip }

/-! ## Conversation store and request handlers -/

/-- Turn roles: `"user"` and `"model"` in the history dictionaries. -/
inductive Role
  | user
  | model
deriving DecidableEq, Repr

/-- One entry of `conversation_history`:
`{"role": ..., "parts": [ ... ]}`. -/
structure Turn where
  role : Role
  parts : List Str
deriving DecidableEq, Repr

/-- A response payload: `jsonify({"response": ...})` or
`jsonify({"response": ..., "table": ...})`. -/
inductive Payload
  | plain (response : Str)
  | withTable (response : Str) (table : Table)
deriving DecidableEq, Repr

/-- The model gateway (external collaborator): given the history as passed
to `model.start_chat` and the message passed to `send_message`, either
returns the response text (`response.text`) or raises. -/
abbrev Gateway := List Turn → Str → Except Str Str

/-- The table-trigger policy of the `/chat` handler (lines 142-146 of
`src/app.py`). -/
def tableTrigger (user_input response_text : Str) : Bool :=
  containsSub (pyLower user_input) (str "timetable") ||
  containsSub (pyLower user_input) (str "table form") ||
  containsSub (pyLower response_text) (str "tabular")

/-- Python `data.get(key, default)` on the parsed JSON body, modelled as an
association list. -/
def dictGet (body : List (Str × Str)) (key dflt : Str) : Str :=
  match body.lookup key with
  | some v => v
  | none => dflt

/-- Result of one `/chat` invocation: the JSON payload returned, whether
the model gateway was invoked, whether table extraction was attempted, and
the conversation history after the handler returns. -/
structure ChatOutcome where
  payload : Payload
  calledGateway : Bool
  attemptedExtract : Bool
  history : List Turn
deriving DecidableEq, Repr

/-- The `/chat` handler (`chat` in `src/app.py`).  `netOk` is the result of
`net_check()` (external connectivity probe); `gw` is the model gateway;
`history` is the process-wide `conversation_history` on entry.  An
`Except.error` from the gateway models an exception from the
`start_chat`/`send_message`/`response.text` step, caught by the outer
`try/except`, which leaves the already-appended user turn in the history. -/
def chat (body : List (Str × Str)) (netOk : Bool) (gw : Gateway)
    (history : List Turn) : ChatOutcome :=
  let user_input := pyStrip (dictGet body (str "user_input") [])
  if user_input = [] then
    { payload := .plain (str "Input cannot be empty.")
      calledGateway := false, attemptedExtract := false, history := history }
  else if !netOk then
    { payload := .plain (str "Network error. Please check your connection.")
      calledGateway := false, attemptedExtract := false, history := history }
  else
    let h1 := history ++ [⟨.user, [user_input ++ str "\n"]⟩]
    match gw h1 user_input with
    | .error e =>
      { payload := .plain (str "Error: " ++ e)
        calledGateway := true, attemptedExtract := false, history := h1 }
    | .ok t =>
      let response_text := pyStrip t
      let h2 := h1 ++ [⟨.model, [response_text ++ str "\n"]⟩]
      if tableTrigger user_input response_text then
        match extract_table response_text with
        | .ok tbl =>
          { payload := .withTable response_text tbl
            calledGateway := true, attemptedExtract := true, history := h2 }
        | .error _ =>
          { payload := .plain response_text
            calledGateway := true, attemptedExtract := true, history := h2 }
      else
        { payload := .plain response_text
          calledGateway := true, attemptedExtract := false, history := h2 }

/-- Result of one `/upload` invocation: the JSON payload, whether the
gateway was invoked, whether a scratch file was written to the uploads
folder, whether that scratch file still exists when the handler returns,
and the conversation history after the handler returns. -/
structure UploadOutcome where
  payload : Payload
  calledGateway : Bool
  scratchSaved : Bool
  scratchRemains : Bool
  history : List Turn
deriving DecidableEq, Repr

/-- The `/upload` handler (`upload_file` in `src/app.py`).  `hasFilePart`
models `'file' in request.files`; `origFilename` is `file.filename`;
`sf` is `werkzeug.secure_filename` (external collaborator); `extractPdf`
and `extractDocx` are the results of the PDF/DOCX text extractors on this
file (external collaborators; `Except.error` models a raised exception);
`gw` is the model gateway.  `os.remove` runs only after a successful
extraction, before the gateway call. -/
def upload_file (hasFilePart : Bool) (origFilename : Str) (sf : Str → Str)
    (extractPdf extractDocx : Except Str Str) (gw : Gateway)
    (history : List Turn) : UploadOutcome :=
  if !hasFilePart then
    { payload := .plain (str "No file part in the request.")
      calledGateway := false, scratchSaved := false, scratchRemains := false
      history := history }
  else if origFilename = [] then
    { payload := .plain (str "No file selected.")
      calledGateway := false, scratchSaved := false, scratchRemains := false
      history := history }
  else if allowed_file origFilename then
    let filename := sf origFilename
    -- `file.save(file_path)`: the scratch file now exists on disk.
    let extractResult : Option (Except Str Str) :=
      if pyEndsWith filename (str ".pdf") then some extractPdf
      else if pyEndsWith filename (str ".docx") then some extractDocx
      else none
    match extractResult with
    | none =>
      { payload := .plain (str "Unsupported file format.")
        calledGateway := false, scratchSaved := true, scratchRemains := true
        history := history }
    | some (.error e) =>
      { payload := .plain (str "Error processing file: " ++ e)
        calledGateway := false, scratchSaved := true, scratchRemains := true
        history := history }
    | some (.ok file_content) =>
      -- `os.remove(file_path)`: the scratch file is deleted here.
      let h1 := history ++ [⟨.user, [file_content ++ str "\n"]⟩]
      match gw h1 file_content with
      | .error e =>
        { payload := .plain (str "Error processing file: " ++ e)
          calledGateway := true, scratchSaved := true, scratchRemains := false
          history := h1 }
      | .ok t =>
        let response_text := pyStrip t
        { payload := .plain response_text
          calledGateway := true, scratchSaved := true, scratchRemains := false
          history := h1 ++ [⟨.model, [response_text ++ str "\n"]⟩] }
  else
    { payload := .plain (str "Invalid file type. Only PDF and DOCX are allowed.")
      calledGateway := false, scratchSaved := false, scratchRemains := false
      history := history }

/-! ## Invariant predicates for the conversation store -/

/-- Strict role alternation starting from role `r`. -/
def altFrom (r : Role) : List Turn → Bool
  | [] => true
  | t :: ts => t.role == r && altFrom (if r == .user then .model else .user) ts

/-- The claimed store invariant: turns strictly alternate between `user`
and `model`, starting with `user`. -/
def alternatesFromUser (h : List Turn) : Bool := altFrom .user h

/-- The store is a sequence of complete user-turn/model-turn pairs. -/
def pairedHistory : List Turn → Bool
  | [] => true
  | [_] => false
  | u :: m :: rest => u.role == .user && m.role == .model && pairedHistory rest

/-! ## Helper lemmas -/

lemma mem_of_mem_splitOnChar {c : Char} {s : Str} :
    ∀ piece ∈ splitOnChar c s, ∀ a ∈ piece, a ∈ s := by
  induction s with
  | nil =>
    intro piece hp a ha
    simp [splitOnChar] at hp
    subst hp
    simp at ha
  | cons x xs ih =>
    intro piece hp a ha
    rw [splitOnChar] at hp
    by_cases hxc : x = c
    · rw [if_pos hxc] at hp
      rcases List.mem_cons.mp hp with h | h
      · subst h; simp at ha
      · exact List.mem_cons_of_mem x (ih piece h a ha)
    · rw [if_neg hxc] at hp
      rcases hsp : splitOnChar c xs with _ | ⟨y, ys⟩
      · simp only [hsp] at hp
        simp at hp
        subst hp
        simp at ha
        rw [ha]
        exact List.mem_cons_self x xs
      · simp only [hsp] at hp
        rcases List.mem_cons.mp hp with h | h
        · subst h
          rcases List.mem_cons.mp ha with h' | h'
          · subst h'; exact List.mem_cons_self a xs
          · exact List.mem_cons_of_mem x
              (ih y (by rw [hsp]; exact List.mem_cons_self y ys) a h')
        · exact List.mem_cons_of_mem x
            (ih piece (by rw [hsp]; exact List.mem_cons_of_mem y h) a ha)

lemma mem_pyStrip_sub {a : Char} {s : Str} (h : a ∈ pyStrip s) : a ∈ s := by
  unfold pyStrip at h
  rw [List.mem_reverse] at h
  have h1 : a ∈ (s.dropWhile pyIsSpace).reverse :=
    (List.dropWhile_sublist _).subset h
  rw [List.mem_reverse] at h1
  exact (List.dropWhile_sublist _).subset h1

lemma containsSub_singleton_false {a : Char} {s : Str} (h : a ∉ s) :
    containsSub s [a] = false := by
  induction s with
  | nil => rfl
  | cons x xs ih =>
    have hax : a ≠ x := fun hh => h (hh ▸ List.mem_cons_self x xs)
    have hxs : a ∉ xs := fun hh => h (List.mem_cons_of_mem x hh)
    simp [containsSub, List.isPrefixOf, ih hxs, hax]

lemma tableLines_eq_nil {text : Str} (h : '|' ∉ text) : tableLines text = [] := by
  unfold tableLines
  rw [List.filter_eq_nil_iff]
  intro line hline
  have hpipe : '|' ∉ line := fun hp =>
    h (mem_pyStrip_sub (mem_of_mem_splitOnChar line hline '|' hp))
  have hcs : containsSub line (str "|") = false := by
    have hq : str "|" = ['|'] := rfl
    rw [hq]
    exact containsSub_singleton_false hpipe
  simp [keepLine, hcs]

lemma pairedHistory_append_pair (pu pm : List Str) :
    ∀ h : List Turn, pairedHistory h = true →
      pairedHistory (h ++ [⟨.user, pu⟩, ⟨.model, pm⟩]) = true := by
  intro h
  induction h using pairedHistory.induct with
  | case1 => intro _; simp [pairedHistory]
  | case2 t => intro hf; simp [pairedHistory] at hf
  | case3 u m rest ih =>
    intro hp
    simp only [pairedHistory, Bool.and_eq_true] at hp
    simp only [List.cons_append, pairedHistory, Bool.and_eq_true]
    exact ⟨hp.1, ih hp.2⟩

lemma extract_table_of_no_pipe {u : Str} (hu : '|' ∉ u) :
    extract_table u = .error (str "No table detected in the response.") := by
  simp [extract_table, tableLines_eq_nil hu]

lemma chat_history_shape (body : List (Str × Str)) (netOk : Bool)
    (gw : Gateway) (history : List Turn) :
    ∃ ext, (chat body netOk gw history).history = history ++ ext := by
  by_cases h1 : pyStrip (dictGet body (str "user_input") []) = []
  · exact ⟨[], by simp [chat, h1]⟩
  by_cases h2 : netOk = true
  case neg => exact ⟨[], by simp [chat, h1, h2]⟩
  cases hg : gw (history ++ [⟨.user, [pyStrip (dictGet body (str "user_input") []) ++ str "\n"]⟩])
      (pyStrip (dictGet body (str "user_input") [])) with
  | error e =>
    exact ⟨[⟨.user, [pyStrip (dictGet body (str "user_input") []) ++ str "\n"]⟩],
      by simp [chat, h1, h2, hg]⟩
  | ok t =>
    by_cases htr : tableTrigger (pyStrip (dictGet body (str "user_input") [])) (pyStrip t) = true
    · cases hex : extract_table (pyStrip t) with
      | ok tbl =>
        exact ⟨[⟨.user, [pyStrip (dictGet body (str "user_input") []) ++ str "\n"]⟩,
          ⟨.model, [pyStrip t ++ str "\n"]⟩], by simp [chat, h1, h2, hg, htr, hex]⟩
      | error e =>
        exact ⟨[⟨.user, [pyStrip (dictGet body (str "user_input") []) ++ str "\n"]⟩,
          ⟨.model, [pyStrip t ++ str "\n"]⟩], by simp [chat, h1, h2, hg, htr, hex]⟩
    · exact ⟨[⟨.user, [pyStrip (dictGet body (str "user_input") []) ++ str "\n"]⟩,
        ⟨.model, [pyStrip t ++ str "\n"]⟩], by simp [chat, h1, h2, hg, htr]⟩

lemma upload_history_shape (hfp : Bool) (fn : Str) (sf : Str → Str)
    (epdf edocx : Except Str Str) (gw : Gateway) (history : List Turn) :
    ∃ ext, (upload_file hfp fn sf epdf edocx gw history).history = history ++ ext := by
  by_cases h0 : hfp = true
  case neg => exact ⟨[], by simp [upload_file, h0]⟩
  by_cases h1 : fn = []
  · exact ⟨[], by simp [upload_file, h0, h1]⟩
  by_cases h2 : allowed_file fn = true
  case neg => exact ⟨[], by simp [upload_file, h0, h1, h2]⟩
  by_cases h3 : pyEndsWith (sf fn) (str ".pdf") = true
  · cases hx : epdf with
    | error e => exact ⟨[], by simp [upload_file, h0, h1, h2, h3, hx]⟩
    | ok fc =>
      cases hg : gw (history ++ [⟨.user, [fc ++ str "\n"]⟩]) fc with
      | error e =>
        exact ⟨[⟨.user, [fc ++ str "\n"]⟩], by simp [upload_file, h0, h1, h2, h3, hx, hg]⟩
      | ok t =>
        exact ⟨[⟨.user, [fc ++ str "\n"]⟩, ⟨.model, [pyStrip t ++ str "\n"]⟩],
          by simp [upload_file, h0, h1, h2, h3, hx, hg]⟩
  by_cases h4 : pyEndsWith (sf fn) (str ".docx") = true
  case neg => exact ⟨[], by simp [upload_file, h0, h1, h2, h3, h4]⟩
  cases hx : edocx with
  | error e => exact ⟨[], by simp [upload_file, h0, h1, h2, h3, h4, hx]⟩
  | ok fc =>
    cases hg : gw (history ++ [⟨.user, [fc ++ str "\n"]⟩]) fc with
    | error e =>
      exact ⟨[⟨.user, [fc ++ str "\n"]⟩], by simp [upload_file, h0, h1, h2, h3, h4, hx, hg]⟩
    | ok t =>
      exact ⟨[⟨.user, [fc ++ str "\n"]⟩, ⟨.model, [pyStrip t ++ str "\n"]⟩],
        by simp [upload_file, h0, h1, h2, h3, h4, hx, hg]⟩

lemma isOk_ne_error {e : Str} {r : Except Str Str} (h : r.isOk = true) :
    r ≠ .error e := by
  cases r with
  | error e' => simp [Except.isOk, Except.toBool] at h
  | ok t => simp

lemma chat_history_paired (body : List (Str × Str)) (netOk : Bool)
    (gw : Gateway) (history : List Turn)
    (hw : pairedHistory history = true)
    (hgw : ∀ h m, (gw h m).isOk = true) :
    pairedHistory (chat body netOk gw history).history = true := by
  by_cases h1 : pyStrip (dictGet body (str "user_input") []) = []
  · simpa [chat, h1] using hw
  by_cases h2 : netOk = true
  case neg => simpa [chat, h1, h2] using hw
  cases hg : gw (history ++ [⟨.user, [pyStrip (dictGet body (str "user_input") []) ++ str "\n"]⟩])
      (pyStrip (dictGet body (str "user_input") [])) with
  | error e => exact absurd hg (isOk_ne_error (hgw _ _))
  | ok t =>
    by_cases htr : tableTrigger (pyStrip (dictGet body (str "user_input") [])) (pyStrip t) = true
    · cases hex : extract_table (pyStrip t) with
      | ok tbl =>
        simpa [chat, h1, h2, hg, htr, hex, List.append_assoc] using
          pairedHistory_append_pair _ _ history hw
      | error e =>
        simpa [chat, h1, h2, hg, htr, hex, List.append_assoc] using
          pairedHistory_append_pair _ _ history hw
    · simpa [chat, h1, h2, hg, htr, List.append_assoc] using
        pairedHistory_append_pair _ _ history hw

lemma upload_history_paired (hfp : Bool) (fn : Str) (sf : Str → Str)
    (epdf edocx : Except Str Str) (gw : Gateway) (history : List Turn)
    (hw : pairedHistory history = true)
    (hgw : ∀ h m, (gw h m).isOk = true) :
    pairedHistory (upload_file hfp fn sf epdf edocx gw history).history = true := by
  by_cases h0 : hfp = true
  case neg => simpa [upload_file, h0] using hw
  by_cases h1 : fn = []
  · simpa [upload_file, h0, h1] using hw
  by_cases h2 : allowed_file fn = true
  case neg => simpa [upload_file, h0, h1, h2] using hw
  by_cases h3 : pyEndsWith (sf fn) (str ".pdf") = true
  · cases hx : epdf with
    | error e => simpa [upload_file, h0, h1, h2, h3, hx] using hw
    | ok fc =>
      cases hg : gw (history ++ [⟨.user, [fc ++ str "\n"]⟩]) fc with
      | error e => exact absurd hg (isOk_ne_error (hgw _ _))
      | ok t =>
        simpa [upload_file, h0, h1, h2, h3, hx, hg, List.append_assoc] using
          pairedHistory_append_pair _ _ history hw
  by_cases h4 : pyEndsWith (sf fn) (str ".docx") = true
  case neg => simpa [upload_file, h0, h1, h2, h3, h4] using hw
  cases hx : edocx with
  | error e => simpa [upload_file, h0, h1, h2, h3, h4, hx] using hw
  | ok fc =>
    cases hg : gw (history ++ [⟨.user, [fc ++ str "\n"]⟩]) fc with
    | error e => exact absurd hg (isOk_ne_error (hgw _ _))
    | ok t =>
      simpa [upload_file, h0, h1, h2, h3, h4, hx, hg, List.append_assoc] using
        pairedHistory_append_pair _ _ history hw

/-! ## Claim theorems -/

/-- C7: for every `/chat` request whose `user_input` is empty or
whitespace-only after trimming, the handler returns exactly
`{"response": "Input cannot be empty."}`, appends nothing to the
conversation store, and does not invoke the model gateway. -/
theorem chat_empty_input (body : List (Str × Str)) (netOk : Bool)
    (gw : Gateway) (history : List Turn)
    (h : pyStrip (dictGet body (str "user_input") []) = []) :
    chat body netOk gw history =
      ⟨.plain (str "Input cannot be empty."), false, false, history⟩ := by
  simp [chat, h]

/-- Witness for C7: concrete whitespace-only input. -/
theorem chat_empty_input_witness :
    chat [(str "user_input", str "   ")] true (fun _ _ => .ok (str "x")) [] =
      ⟨.plain (str "Input cannot be empty."), false, false, []⟩ :=
  chat_empty_input [(str "user_input", str "   ")] true
    (fun _ _ => .ok (str "x")) [] (by decide)

/-- C9: a `/chat` request whose JSON body lacks the `"user_input"` key is
treated exactly like an empty input: the field defaults to the empty
string and the handler returns `{"response": "Input cannot be empty."}`
without touching the conversation store or the model gateway. -/
theorem chat_missing_user_input_key (body : List (Str × Str)) (netOk : Bool)
    (gw : Gateway) (history : List Turn)
    (h : body.lookup (str "user_input") = none) :
    dictGet body (str "user_input") [] = [] ∧
    chat body netOk gw history =
      ⟨.plain (str "Input cannot be empty."), false, false, history⟩ := by
  have hd : dictGet body (str "user_input") [] = [] := by simp [dictGet, h]
  refine ⟨hd, ?_⟩
  simp [chat, hd, pyStrip]

/-- Witness for C9: a body with an unrelated key only. -/
theorem chat_missing_user_input_key_witness :
    dictGet [(str "foo", str "bar")] (str "user_input") [] = [] ∧
    chat [(str "foo", str "bar")] true (fun _ _ => .ok (str "x")) [] =
      ⟨.plain (str "Input cannot be empty."), false, false, []⟩ :=
  chat_missing_user_input_key [(str "foo", str "bar")] true
    (fun _ _ => .ok (str "x")) [] (by decide)

/-- C8: for every uploaded file whose filename has an extension outside
`{pdf, docx}`, the `/upload` handler returns exactly
`{"response": "Invalid file type. Only PDF and DOCX are allowed."}`,
without invoking the model gateway and without appending to the
conversation store (and without ever writing a scratch file). -/
theorem upload_rejects_disallowed_extension (fn : Str) (sf : Str → Str)
    (epdf edocx : Except Str Str) (gw : Gateway) (history : List Turn)
    (hdot : '.' ∈ fn)
    (hpdf : pyLower (fileExt fn) ≠ str "pdf")
    (hdocx : pyLower (fileExt fn) ≠ str "docx") :
    upload_file true fn sf epdf edocx gw history =
      ⟨.plain (str "Invalid file type. Only PDF and DOCX are allowed."),
        false, false, false, history⟩ := by
  have hne : fn ≠ [] := by rintro rfl; simp at hdot
  have h1 : (pyLower (fileExt fn) == str "pdf") = false := by
    simp [hpdf]
  have h2 : (pyLower (fileExt fn) == str "docx") = false := by
    simp [hdocx]
  have hall : allowed_file fn = false := by
    simp [allowed_file, h1, h2]
  simp [upload_file, hne, hall]

/-- Witness for C8: `notes.txt`. -/
theorem upload_rejects_disallowed_extension_witness :
    upload_file true (str "notes.txt") id (.ok (str "a")) (.ok (str "b"))
        (fun _ _ => .ok (str "x")) [] =
      ⟨.plain (str "Invalid file type. Only PDF and DOCX are allowed."),
        false, false, false, []⟩ :=
  upload_rejects_disallowed_extension (str "notes.txt") id (.ok (str "a"))
    (.ok (str "b")) (fun _ _ => .ok (str "x")) [] (by decide) (by decide)
    (by decide)

/-- C10: an uploaded file whose extension matches `pdf`/`docx` only
case-insensitively passes `allowed_file` and is saved to the uploads
folder, but the case-sensitive `endswith` dispatch matches neither branch,
so the handler returns `{"response": "Unsupported file format."}` without
invoking the model gateway, and the saved scratch file is never deleted. -/
theorem upload_case_sensitive_dispatch_gap (fn : Str) (sf : Str → Str)
    (epdf edocx : Except Str Str) (gw : Gateway) (history : List Turn)
    (hallow : allowed_file fn = true)
    (hpdf : pyEndsWith (sf fn) (str ".pdf") = false)
    (hdocx : pyEndsWith (sf fn) (str ".docx") = false) :
    upload_file true fn sf epdf edocx gw history =
      ⟨.plain (str "Unsupported file format."), false, true, true, history⟩ := by
  have hne : fn ≠ [] := by
    rintro rfl
    simp [allowed_file, List.contains] at hallow
  simp [upload_file, hne, hallow, hpdf, hdocx]

/-- Witness for C10: `report.PDF` with the identity as
`secure_filename` (which is what `secure_filename` returns on this
name). -/
theorem upload_case_sensitive_dispatch_gap_witness :
    upload_file true (str "report.PDF") id (.ok (str "a")) (.ok (str "b"))
        (fun _ _ => .ok (str "x")) [] =
      ⟨.plain (str "Unsupported file format."), false, true, true, []⟩ :=
  upload_case_sensitive_dispatch_gap (str "report.PDF") id (.ok (str "a"))
    (.ok (str "b")) (fun _ _ => .ok (str "x")) [] (by decide) (by decide)
    (by decide)

/-- C2 (failing input): for the accepted upload `report.pdf` whose PDF
text extraction raises, the handler returns the error payload but the
scratch file saved to the uploads folder still exists when the handler
returns: `os.remove` runs only after a successful extraction. -/
theorem scratch_file_leaks_on_extraction_error :
    upload_file true (str "report.pdf") id
        (.error (str "EOF marker not found")) (.ok (str "unused"))
        (fun _ _ => .ok (str "ok")) [] =
      ⟨.plain (str "Error processing file: EOF marker not found"),
        false, true, true, []⟩ := by
  decide

/-- C3: applying `extract_table` to `"A | B\n1 | 2\n3 | 4"` returns
`headers = ["A","B"]` and `rows = [["1","2"],["3","4"]]`; in general,
whenever the retained lines are non-empty, the first retained line split
on `|` with each field trimmed gives the headers and every remaining
retained line gives one row, with no validation that row lengths match
the header length (ragged rows pass through, as the last conjunct shows
on a concrete ragged input). -/
theorem extract_table_headers_rows :
    (extract_table (str "A | B\n1 | 2\n3 | 4") =
      .ok ⟨[str "A", str "B"], [[str "1", str "2"], [str "3", str "4"]]⟩) ∧
    (∀ text h t, tableLines text = h :: t →
      extract_table text =
        .ok ⟨(splitOnChar '|' h).map pyStrip,
             t.map fun row => (splitOnChar '|' row).map pyStrip⟩) ∧
    (extract_table (str "H1|H2\na|b|c\nonly|") =
      .ok ⟨[str "H1", str "H2"],
           [[str "a", str "b", str "c"], [str "only", []]]⟩) := by
  refine ⟨by decide, ?_, by decide⟩
  intro text h t hh
  simp [extract_table, hh]

/-- Witness for C3's general conjunct at a concrete input. -/
theorem extract_table_headers_rows_witness :
    extract_table (str "x|y") =
      .ok ⟨(splitOnChar '|' (str "x|y")).map pyStrip,
           List.map (fun row => (splitOnChar '|' row).map pyStrip) []⟩ :=
  extract_table_headers_rows.2.1 (str "x|y") (str "x|y") [] (by decide)

/-- C5: a line is retained as table data iff it is a line of the stripped
input that contains `|` and whose lower-cased content contains neither
`"customize"` nor `"spreadsheet"`. -/
theorem tableLines_retention_iff (text line : Str) :
    line ∈ tableLines text ↔
      line ∈ splitOnChar '\n' (pyStrip text) ∧
        containsSub line (str "|") = true ∧
        containsSub (pyLower line) (str "customize") = false ∧
        containsSub (pyLower line) (str "spreadsheet") = false := by
  simp only [tableLines, List.mem_filter, keepLine, Bool.and_eq_true,
    Bool.not_eq_true']
  tauto

/-- C4: for every input text in which no line contains `|` (and, the
middle conjunct, whenever no lines are retained at all), `extract_table`
fails with the no-table error rather than returning a table; and the
`/chat` handler recovers that failure locally, falling back to the plain
`{response}` payload when the model's response has no `|`. -/
theorem extract_table_no_pipe_error_and_fallback (text : Str)
    (hp : '|' ∉ text) :
    extract_table text = .error (str "No table detected in the response.") ∧
    (∀ u, tableLines u = [] →
      extract_table u = .error (str "No table detected in the response.")) ∧
    (∀ body history,
      pyStrip (dictGet body (str "user_input") []) ≠ [] →
      (chat body true (fun _ _ => .ok text) history).payload
        = .plain (pyStrip text)) := by
  have hps : '|' ∉ pyStrip text := fun h => hp (mem_pyStrip_sub h)
  refine ⟨extract_table_of_no_pipe hp, fun u hu => by simp [extract_table, hu], ?_⟩
  intro body history hui
  by_cases htr : tableTrigger (pyStrip (dictGet body (str "user_input") []))
      (pyStrip text) = true
  · simp [chat, hui, htr, extract_table_of_no_pipe hps]
  · simp [chat, hui, htr]

/-- Witness for C4: a pipe-free response falls back to plain text. -/
theorem extract_table_no_pipe_error_and_fallback_witness :
    extract_table (str "sunny day") =
      .error (str "No table detected in the response.") ∧
    (chat [(str "user_input", str "timetable please")] true
        (fun _ _ => .ok (str "sunny day")) []).payload
      = .plain (pyStrip (str "sunny day")) := by
  have h := extract_table_no_pipe_error_and_fallback (str "sunny day") (by decide)
  exact ⟨h.1, h.2.2 [(str "user_input", str "timetable please")] [] (by decide)⟩

/-- C6: on a successful `/chat` turn, table extraction is attempted iff
the trimmed user input contains `timetable` or `table form`
(case-insensitive) or the model's (trimmed) response contains `tabular`
(case-insensitive); when the trigger does not hold the handler returns
the plain `{response}` payload. -/
theorem chat_trigger_policy (body : List (Str × Str)) (gw : Gateway)
    (history : List Turn) (t : Str)
    (hui : pyStrip (dictGet body (str "user_input") []) ≠ [])
    (hgw : gw (history ++
          [⟨.user, [pyStrip (dictGet body (str "user_input") []) ++ str "\n"]⟩])
        (pyStrip (dictGet body (str "user_input") [])) = .ok t) :
    (chat body true gw history).attemptedExtract
        = tableTrigger (pyStrip (dictGet body (str "user_input") []))
            (pyStrip t) ∧
    (tableTrigger (pyStrip (dictGet body (str "user_input") [])) (pyStrip t)
        = false →
      (chat body true gw history).payload = .plain (pyStrip t)) := by
  by_cases htr : tableTrigger (pyStrip (dictGet body (str "user_input") []))
      (pyStrip t) = true
  · refine ⟨?_, fun hf => absurd htr (by simp [hf])⟩
    cases hex : extract_table (pyStrip t) with
    | ok tbl => simp [chat, hui, hgw, htr, hex]
    | error e => simp [chat, hui, hgw, htr, hex]
  · rw [Bool.not_eq_true] at htr
    exact ⟨by simp [chat, hui, hgw, htr], fun _ => by simp [chat, hui, hgw, htr]⟩

/-- Witness for C6: input and response without any trigger keyword. -/
theorem chat_trigger_policy_witness :
    (chat [(str "user_input", str "hello")] true
        (fun _ _ => .ok (str "good morning")) []).attemptedExtract
      = tableTrigger (pyStrip (dictGet [(str "user_input", str "hello")]
          (str "user_input") [])) (pyStrip (str "good morning")) ∧
    (tableTrigger (pyStrip (dictGet [(str "user_input", str "hello")]
          (str "user_input") [])) (pyStrip (str "good morning")) = false →
      (chat [(str "user_input", str "hello")] true
          (fun _ _ => .ok (str "good morning")) []).payload
        = .plain (pyStrip (str "good morning"))) :=
  chat_trigger_policy [(str "user_input", str "hello")]
    (fun _ _ => .ok (str "good morning")) [] (str "good morning")
    (by decide) rfl

/-- C1 (counterexample): when the model gateway raises during a `/chat`
turn, the appended user turn stays in the conversation store with no
model reply, so after a later successful turn the store no longer
strictly alternates user/model starting with user. -/
theorem alternation_fails_after_gateway_error :
    alternatesFromUser
      ((chat [(str "user_input", str "hi")] true
          (fun _ _ => .ok (str "hello"))
          ((chat [(str "user_input", str "hi")] true
              (fun _ _ => .error (str "model unavailable")) []).history)).history)
      = false := by
  decide

/-- C1 (amended): after every completed handler invocation the previous
store contents are preserved as a prefix (no turn is removed or
reordered); and on invocations where the model gateway succeeds, both
handlers append the user turn followed by its model reply, so a store
made of user/model pairs stays made of user/model pairs.  When the
gateway raises after the user turn is appended, that user turn remains
without a model reply. -/
theorem store_append_only_and_paired_on_success (history : List Turn)
    (hw : pairedHistory history = true) :
    (∀ body netOk gw, history <+: (chat body netOk gw history).history) ∧
    (∀ hfp fn sf epdf edocx gw,
      history <+: (upload_file hfp fn sf epdf edocx gw history).history) ∧
    (∀ body netOk gw, (∀ h m, (gw h m).isOk = true) →
      pairedHistory (chat body netOk gw history).history = true) ∧
    (∀ hfp fn sf epdf edocx gw, (∀ h m, (gw h m).isOk = true) →
      pairedHistory (upload_file hfp fn sf epdf edocx gw history).history
        = true) := by
  refine ⟨?_, ?_, ?_, ?_⟩
  · intro body netOk gw
    obtain ⟨ext, hext⟩ := chat_history_shape body netOk gw history
    rw [hext]
    exact List.prefix_append _ _
  · intro hfp fn sf epdf edocx gw
    obtain ⟨ext, hext⟩ := upload_history_shape hfp fn sf epdf edocx gw history
    rw [hext]
    exact List.prefix_append _ _
  · intro body netOk gw hgw
    exact chat_history_paired body netOk gw history hw hgw
  · intro hfp fn sf epdf edocx gw hgw
    exact upload_history_paired hfp fn sf epdf edocx gw history hw hgw

/-- Witness for C1's amended statement: a successful turn on the empty
store leaves a paired store extending it. -/
theorem store_append_only_and_paired_on_success_witness :
    pairedHistory ((chat [(str "user_input", str "hi")] true
        (fun _ _ => .ok (str "welcome")) []).history) = true :=
  (store_append_only_and_paired_on_success [] (by decide)).2.2.1
    [(str "user_input", str "hi")] true (fun _ _ => .ok (str "welcome"))
    (fun _ _ => rfl)

end CurriculumGen

